import Mathlib

/-!
Verification development for the olang front-end and evaluator: a lexer,
a recursive-descent precedence-climbing parser, and a tree-walking
interpreter with lexical scoping and closures.

The repository ships the AST type declarations, the node factory and the
test suites (lexer.spec.ts, parser.spec.ts, interpreter tests); the
lexer, parser and interpreter implementations themselves are not among
the provided sources.  Those missing parts are modelled here from the
specification (grammar in section 4.2, evaluation rules in section 4.3),
anchored at every point to the behaviour the in-repository tests demand:
the parser must produce nodes structurally equal (toStrictEqual) to the
factory-built expectations, and the interpreter must reproduce the
tabulated results.

Numbers are modelled as exact rationals; every value appearing in the
repository's tests (small integers, 1.5, 1000.0002, 512, 144, ...) is
exactly representable, so the rational model agrees with float64 on all
inputs exercised here.
-/

namespace Olang

/-! ## Tokens (modelled from the spec, section 3 and 4.1, and lexer.spec.ts) -/

/-- Token kinds, the fixed enumeration from the spec's data model and the
`TokenKind` used throughout lexer.spec.ts and the parser tests. -/
inductive TokenKind where
  | Number
  | Identifier
  | VarKeyword
  | Plus
  | Minus
  | Asterisk
  | AsteriskAsterisk
  | RightSlash
  | Percent
  | Equals
  | LeftParen
  | RightParen
  | Comma
  | Semicolon
  | LeftBrace
  | RightBrace
  | Arrow
  deriving DecidableEq, Repr

/-- A token: kind, raw lexeme and its source offsets, as in the spec's
data model (`kind`, `text`, `from`/`to`). -/
structure Token where
  kind : TokenKind
  text : String
  fromPos : Nat
  toPos : Nat
  deriving DecidableEq, Repr

/-! ## Lexer

Modelled from the spec: `tokenize(source)` recognizes, longest match
first, numeric literals (digits, optional single decimal point, optional
fractional digits), identifiers `[A-Za-z_][A-Za-z0-9_]*`, the declaration
keywords `let` and `v` (lexer.spec.ts: `v a = 1` lexes `v` as the
VarKeyword), two-character operators `**` and `=>` greedily before `*`
and `=`, single-character operators and punctuation, and skips all
whitespace including newlines.  Any other character is a lexical error
reporting its offset.  The implementation file lexer.ts is not among the
provided sources. -/

def isIdentStart (c : Char) : Bool :=
  (('a' ≤ c) && (c ≤ 'z')) || (('A' ≤ c) && (c ≤ 'Z')) || c = '_'

def isIdentChar (c : Char) : Bool :=
  isIdentStart c || c.isDigit

def isSpaceChar (c : Char) : Bool :=
  c = ' ' || c = '\n' || c = '\t' || c = '\r'

/-- Split off the longest prefix of characters satisfying `p`. -/
def takeDropWhile (p : Char → Bool) : List Char → List Char × List Char
  | [] => ([], [])
  | c :: cs =>
    if p c then
      let (tk, rest) := takeDropWhile p cs
      (c :: tk, rest)
    else ([], c :: cs)

/-- A lexical error: the offending character and its offset. -/
structure LexicalError where
  offset : Nat
  character : Char
  deriving DecidableEq, Repr

def mkTok (kind : TokenKind) (text : List Char) (pos : Nat) : Token :=
  { kind := kind, text := String.mk text, fromPos := pos, toPos := pos + text.length }

/-- One step of the lexer: fuel-bounded scan over the remaining
characters, carrying the current offset. -/
def lexGo : Nat → List Char → Nat → Except LexicalError (List Token)
  | 0, _, _ => .error { offset := 0, character := ' ' }
  | _ + 1, [], _ => .ok []
  | fuel + 1, c :: cs, pos =>
    if isSpaceChar c then
      lexGo fuel cs (pos + 1)
    else if c.isDigit then
      let (intPart, rest) := takeDropWhile Char.isDigit (c :: cs)
      match rest with
      | '.' :: rest' =>
        let (fracPart, rest'') := takeDropWhile Char.isDigit rest'
        let text := intPart ++ '.' :: fracPart
        (lexGo fuel rest'' (pos + text.length)).map
          (fun ts => mkTok .Number text pos :: ts)
      | _ =>
        (lexGo fuel rest (pos + intPart.length)).map
          (fun ts => mkTok .Number intPart pos :: ts)
    else if isIdentStart c then
      let (ident, rest) := takeDropWhile isIdentChar (c :: cs)
      let kind := if String.mk ident = "let" || String.mk ident = "v" then
        TokenKind.VarKeyword else TokenKind.Identifier
      (lexGo fuel rest (pos + ident.length)).map
        (fun ts => mkTok kind ident pos :: ts)
    else
      match c, cs with
      | '*', '*' :: cs' =>
        (lexGo fuel cs' (pos + 2)).map (fun ts => mkTok .AsteriskAsterisk ['*', '*'] pos :: ts)
      | '=', '>' :: cs' =>
        (lexGo fuel cs' (pos + 2)).map (fun ts => mkTok .Arrow ['=', '>'] pos :: ts)
      | '*', _ => (lexGo fuel cs (pos + 1)).map (fun ts => mkTok .Asterisk ['*'] pos :: ts)
      | '=', _ => (lexGo fuel cs (pos + 1)).map (fun ts => mkTok .Equals ['='] pos :: ts)
      | '+', _ => (lexGo fuel cs (pos + 1)).map (fun ts => mkTok .Plus ['+'] pos :: ts)
      | '-', _ => (lexGo fuel cs (pos + 1)).map (fun ts => mkTok .Minus ['-'] pos :: ts)
      | '/', _ => (lexGo fuel cs (pos + 1)).map (fun ts => mkTok .RightSlash ['/'] pos :: ts)
      | '%', _ => (lexGo fuel cs (pos + 1)).map (fun ts => mkTok .Percent ['%'] pos :: ts)
      | '(', _ => (lexGo fuel cs (pos + 1)).map (fun ts => mkTok .LeftParen ['('] pos :: ts)
      | ')', _ => (lexGo fuel cs (pos + 1)).map (fun ts => mkTok .RightParen [')'] pos :: ts)
      | ',', _ => (lexGo fuel cs (pos + 1)).map (fun ts => mkTok .Comma [','] pos :: ts)
      | ';', _ => (lexGo fuel cs (pos + 1)).map (fun ts => mkTok .Semicolon [';'] pos :: ts)
      | '{', _ => (lexGo fuel cs (pos + 1)).map (fun ts => mkTok .LeftBrace ['\x7b'] pos :: ts)
      | '}', _ => (lexGo fuel cs (pos + 1)).map (fun ts => mkTok .RightBrace ['\x7d'] pos :: ts)
      | _, _ => .error { offset := pos, character := c }

/-- Tokenize a whole source string. -/
def tokenize (s : String) : Except LexicalError (List Token) :=
  lexGo (s.length + 1) s.toList 0

/-! ## AST

Modelled from ast.ts and factory.ts.  The `BaseNode` interface in ast.ts
declares a `meta` record with `from`/`to` offsets on every node; the
factory functions, however, construct nodes with no `meta` key at all,
and the parser tests compare parser output against factory-built nodes
with `toStrictEqual`, which distinguishes a present key from an absent
one.  To make that distinction expressible, every constructor here
carries `meta : Option SourceSpan`, where `none` models the absent key
of a factory-built node and `some` models a populated source range. -/

/-- The source range of the `meta` field declared by `BaseNode`. -/
structure SourceSpan where
  fromPos : Nat
  toPos : Nat
  deriving DecidableEq, Repr

/-- Expression nodes, one constructor per `SyntaxKind` shape that can
occur in expression position (ast.ts).  `FunctionParameters` and
`FunctionBody` are the wrapper nodes built by the factory of the same
names in the parser tests. -/
inductive Expression where
  | NumericLiteral (value : ℚ) (meta : Option SourceSpan)
  | Identifier (name : String) (meta : Option SourceSpan)
  | UnaryExpression (operator : TokenKind) (operand : Expression) (meta : Option SourceSpan)
  | BinaryExpression (left : Expression) (operator : TokenKind) (right : Expression)
      (meta : Option SourceSpan)
  | VariableDeclaration (name : Expression) (initializer : Expression) (meta : Option SourceSpan)
  | FunctionExpression (parameters : Expression) (body : Expression) (meta : Option SourceSpan)
  | FunctionParameters (parameters : List Expression) (meta : Option SourceSpan)
  | FunctionBody (statements : List Expression) (meta : Option SourceSpan)
  | FunctionCall (name : Expression) (arguments : List Expression) (meta : Option SourceSpan)
  deriving Repr

/-- The `Program` node: an ordered sequence of statements. -/
inductive ProgramNode where
  | Program (statements : List Expression) (meta : Option SourceSpan)
  deriving Repr

/-- The meta source range carried by an expression node, if any. -/
def Expression.metaOf : Expression → Option SourceSpan
  | .NumericLiteral _ m => m
  | .Identifier _ m => m
  | .UnaryExpression _ _ m => m
  | .BinaryExpression _ _ _ m => m
  | .VariableDeclaration _ _ m => m
  | .FunctionExpression _ _ m => m
  | .FunctionParameters _ m => m
  | .FunctionBody _ m => m
  | .FunctionCall _ _ m => m

/-! ### Factory (factory.ts / the builders imported by the parser tests)

Each builder constructs exactly the object literal of the source: a kind
tag and the payload, with no `meta` key (hence `none`). -/

def NumericLiteral (value : ℚ) : Expression := .NumericLiteral value none

def Identifier (name : String) : Expression := .Identifier name none

def UnaryExpression (operator : TokenKind) (operand : Expression) : Expression :=
  .UnaryExpression operator operand none

def BinaryExpression (left : Expression) (operator : TokenKind) (right : Expression) :
    Expression :=
  .BinaryExpression left operator right none

def VariableDeclaration (name : Expression) (initializer : Expression) : Expression :=
  .VariableDeclaration name initializer none

def FunctionExpression (parameters : Expression) (body : Expression) : Expression :=
  .FunctionExpression parameters body none

def FunctionParameters (parameters : List Expression) : Expression :=
  .FunctionParameters parameters none

def FunctionBody (statements : List Expression) : Expression :=
  .FunctionBody statements none

def FunctionCallExpression (name : Expression) (args : List Expression) : Expression :=
  .FunctionCall name args none

/-! ## Parser

Modelled from the spec: the recursive-descent, precedence-climbing
grammar of section 4.2, anchored to the parser tests.  parser.ts is not
among the provided sources.  Additive and multiplicative levels loop and
fold left; the exponent level recurses into itself on the right; the
`(` ambiguity is resolved by checking for a function header
(identifiers only, then `)` and `=>`) before falling back to a
parenthesized expression.  Statement separators: the parser tests use
`;` (with an optional trailing `;`), while the interpreter tests rely on
statements separated only by line breaks, so a statement boundary needs
no separator token at all and a single `;` between statements is
consumed when present.

All parsing functions are fuel-bounded (one unit per call) so that they
are structurally recursive and kernel-reducible; fuel is sized so that
it never runs out on inputs the grammar accepts. -/

/-- The numeric value denoted by a numeric literal's lexeme
(digits, optional `.`, optional fractional digits), as an exact
rational. -/
def natOfDigits (cs : List Char) : Nat :=
  cs.foldl (fun a c => a * 10 + (c.toNat - '0'.toNat)) 0

def decVal (s : String) : ℚ :=
  let (intPart, rest) := takeDropWhile Char.isDigit s.toList
  match rest with
  | '.' :: rest' =>
    let (fracPart, _) := takeDropWhile Char.isDigit rest'
    (natOfDigits intPart : ℚ) + (natOfDigits fracPart : ℚ) / ((10 : ℚ) ^ fracPart.length)
  | _ => (natOfDigits intPart : ℚ)

/-- Does the token list start with the `=>` of a function header? -/
def nextIsArrow : List Token → Bool
  | v :: _ => v.kind = .Arrow
  | [] => false

/-- Scan the tail of a parameter list: after one identifier, either the
closing `) =>` of a function header, or `, identifier` and repeat. -/
def scanParams : List Token → Bool
  | u :: rest =>
    if u.kind = .RightParen then nextIsArrow rest
    else if u.kind = .Comma then
      match rest with
      | v :: rest' => v.kind = .Identifier && scanParams rest'
      | [] => false
    else false
  | [] => false

/-- Lookahead deciding the `(` ambiguity, applied to the tokens after
the opening parenthesis: a function header is a possibly empty
comma-separated identifier list followed by `)` and `=>`. -/
def isFunctionHeader : List Token → Bool
  | u :: rest =>
    if u.kind = .RightParen then nextIsArrow rest
    else if u.kind = .Identifier then scanParams rest
    else false
  | [] => false

/-- Consume a function header after the opening parenthesis: the
parameter identifiers, the closing parenthesis and the arrow. -/
def parseParams : List Token → Except String (List Expression × List Token)
  | ⟨.RightParen, _, _, _⟩ :: ⟨.Arrow, _, _, _⟩ :: rest => .ok ([], rest)
  | ⟨.Identifier, x, _, _⟩ :: ⟨.RightParen, _, _, _⟩ :: ⟨.Arrow, _, _, _⟩ :: rest =>
    .ok ([Identifier x], rest)
  | ⟨.Identifier, x, _, _⟩ :: ⟨.Comma, _, _, _⟩ :: rest =>
    (parseParams rest).map (fun (ps, ts) => (Identifier x :: ps, ts))
  | _ => .error "malformed function header"

/-- Consume one optional statement-separating semicolon. -/
def dropSemi : List Token → List Token
  | ⟨.Semicolon, _, _, _⟩ :: rest => rest
  | ts => ts

mutual

/-- Expression := Assignment; Assignment := Identifier "=" Expression | Additive. -/
def parseExpr : Nat → List Token → Except String (Expression × List Token)
  | 0, _ => .error "out of fuel"
  | fuel + 1, ts =>
    match ts with
    | ⟨.Identifier, x, _, _⟩ :: ⟨.Equals, _, _, _⟩ :: rest =>
      (parseExpr fuel rest).map
        (fun (r, ts') => (BinaryExpression (Identifier x) .Equals r, ts'))
    | _ => parseAdditive fuel ts

/-- Additive := Multiplicative (("+"|"-") Multiplicative)*, folding left. -/
def parseAdditive : Nat → List Token → Except String (Expression × List Token)
  | 0, _ => .error "out of fuel"
  | fuel + 1, ts => do
    let (e, ts') ← parseMult fuel ts
    parseAddLoop fuel e ts'

def parseAddLoop : Nat → Expression → List Token →
    Except String (Expression × List Token)
  | 0, _, _ => .error "out of fuel"
  | fuel + 1, acc, ts =>
    match ts with
    | u :: rest =>
      if u.kind = .Plus then do
        let (r, ts') ← parseMult fuel rest
        parseAddLoop fuel (BinaryExpression acc .Plus r) ts'
      else if u.kind = .Minus then do
        let (r, ts') ← parseMult fuel rest
        parseAddLoop fuel (BinaryExpression acc .Minus r) ts'
      else .ok (acc, u :: rest)
    | [] => .ok (acc, [])

/-- Multiplicative := Exponent (("*"|"/"|"%") Exponent)*, folding left. -/
def parseMult : Nat → List Token → Except String (Expression × List Token)
  | 0, _ => .error "out of fuel"
  | fuel + 1, ts => do
    let (e, ts') ← parseExpo fuel ts
    parseMulLoop fuel e ts'

def parseMulLoop : Nat → Expression → List Token →
    Except String (Expression × List Token)
  | 0, _, _ => .error "out of fuel"
  | fuel + 1, acc, ts =>
    match ts with
    | u :: rest =>
      if u.kind = .Asterisk then do
        let (r, ts') ← parseExpo fuel rest
        parseMulLoop fuel (BinaryExpression acc .Asterisk r) ts'
      else if u.kind = .RightSlash then do
        let (r, ts') ← parseExpo fuel rest
        parseMulLoop fuel (BinaryExpression acc .RightSlash r) ts'
      else if u.kind = .Percent then do
        let (r, ts') ← parseExpo fuel rest
        parseMulLoop fuel (BinaryExpression acc .Percent r) ts'
      else .ok (acc, u :: rest)
    | [] => .ok (acc, [])

/-- Exponent := Unary ("**" Exponent)?, recursing into itself on the
right (right-associative), never into the next-lower level. -/
def parseExpo : Nat → List Token → Except String (Expression × List Token)
  | 0, _ => .error "out of fuel"
  | fuel + 1, ts => do
    let (l, ts') ← parseUnary fuel ts
    match ts' with
    | u :: rest =>
      if u.kind = .AsteriskAsterisk then do
        let (r, ts'') ← parseExpo fuel rest
        .ok (BinaryExpression l .AsteriskAsterisk r, ts'')
      else .ok (l, u :: rest)
    | [] => .ok (l, [])

/-- Unary := "-" Unary | Primary. -/
def parseUnary : Nat → List Token → Except String (Expression × List Token)
  | 0, _ => .error "out of fuel"
  | fuel + 1, ts =>
    match ts with
    | u :: rest =>
      if u.kind = .Minus then
        (parseUnary fuel rest).map (fun (e, ts') => (UnaryExpression .Minus e, ts'))
      else parsePrimary fuel (u :: rest)
    | [] => parsePrimary fuel []

/-- Primary := Number | Identifier FunctionCall? | "(" Group ")" |
FunctionExpr, with the function-header lookahead deciding the `(`
ambiguity and parentheses introducing no wrapper node. -/
def parsePrimary : Nat → List Token → Except String (Expression × List Token)
  | 0, _ => .error "out of fuel"
  | fuel + 1, ts =>
    match ts with
    | ⟨.Number, txt, _, _⟩ :: rest => .ok (NumericLiteral (decVal txt), rest)
    | ⟨.Identifier, x, _, _⟩ :: ⟨.LeftParen, _, _, _⟩ :: rest =>
      (parseArgs fuel rest).map
        (fun (args, ts') => (FunctionCallExpression (Identifier x) args, ts'))
    | ⟨.Identifier, x, _, _⟩ :: rest => .ok (Identifier x, rest)
    | ⟨.LeftParen, _, _, _⟩ :: rest =>
      if isFunctionHeader rest then do
        let (ps, ts₁) ← parseParams rest
        let (b, ts₂) ← parseBody fuel ts₁
        .ok (FunctionExpression (FunctionParameters ps) b, ts₂)
      else do
        let (e, ts₁) ← parseExpr fuel rest
        match ts₁ with
        | ⟨.RightParen, _, _, _⟩ :: ts₂ => .ok (e, ts₂)
        | _ => .error "expected closing parenthesis"
    | _ => .error "unable to consume token"

/-- FunctionCall argument list, after the opening parenthesis. -/
def parseArgs : Nat → List Token → Except String (List Expression × List Token)
  | 0, _ => .error "out of fuel"
  | fuel + 1, ts =>
    match ts with
    | ⟨.RightParen, _, _, _⟩ :: rest => .ok ([], rest)
    | _ => do
      let (e, ts') ← parseExpr fuel ts
      parseArgsLoop fuel [e] ts'

def parseArgsLoop : Nat → List Expression → List Token →
    Except String (List Expression × List Token)
  | 0, _, _ => .error "out of fuel"
  | fuel + 1, acc, ts =>
    match ts with
    | ⟨.Comma, _, _, _⟩ :: rest => do
      let (e, ts') ← parseExpr fuel rest
      parseArgsLoop fuel (acc ++ [e]) ts'
    | ⟨.RightParen, _, _, _⟩ :: rest => .ok (acc, rest)
    | _ => .error "expected comma or closing parenthesis"

/-- Body := "{" statement sequence "}" | Expression. -/
def parseBody : Nat → List Token → Except String (Expression × List Token)
  | 0, _ => .error "out of fuel"
  | fuel + 1, ⟨.LeftBrace, _, _, _⟩ :: rest =>
    (parseStmts fuel true rest).map (fun (ss, ts') => (FunctionBody ss, ts'))
  | fuel + 1, ts => parseExpr fuel ts

/-- Statement := VariableDeclaration | Expression. -/
def parseStatement : Nat → List Token → Except String (Expression × List Token)
  | 0, _ => .error "out of fuel"
  | fuel + 1, ⟨.VarKeyword, _, _, _⟩ :: ⟨.Identifier, x, _, _⟩ :: ⟨.Equals, _, _, _⟩ :: rest =>
    (parseExpr fuel rest).map
      (fun (e, ts') => (VariableDeclaration (Identifier x) e, ts'))
  | fuel + 1, ts => parseExpr fuel ts

/-- A statement sequence, ended by `}` when `brace` is true and by the
end of input otherwise; after each statement one separating `;` is
consumed when present. -/
def parseStmts : Nat → Bool → List Token →
    Except String (List Expression × List Token)
  | 0, _, _ => .error "out of fuel"
  | fuel + 1, brace, ts =>
    match brace, ts with
    | true, ⟨.RightBrace, _, _, _⟩ :: rest => .ok ([], rest)
    | false, [] => .ok ([], [])
    | _, ts => do
      let (s, ts') ← parseStatement fuel ts
      let (ss, ts'') ← parseStmts fuel brace (dropSemi ts')
      .ok (s :: ss, ts'')

end

/-- Program := statement sequence up to the end of input. -/
def parseProgramToks (fuel : Nat) (ts : List Token) :
    Except String (ProgramNode × List Token) :=
  match fuel with
  | 0 => .error "out of fuel"
  | fuel + 1 =>
    (parseStmts fuel false ts).map (fun (ss, ts') => (.Program ss none, ts'))

/-- Fuel amply covering any accepted input: the call depth grows by at
most a constant per consumed token. -/
def progFuel (ts : List Token) : Nat := 8 * ts.length + 16

/-- parseProgram entry point: tokenize then parse a whole program. -/
def parse (s : String) : Except String ProgramNode :=
  match tokenize s with
  | .error e => .error ("Lexical error at offset " ++ toString e.offset)
  | .ok ts =>
    match parseProgramToks (progFuel ts) ts with
    | .ok (p, _) => .ok p
    | .error e => .error e

/-- parseExpression entry point (the tests' `parseExpr` with
`expectEOF`): the whole input must be one expression. -/
def parseExpressionFull (s : String) : Except String Expression :=
  match tokenize s with
  | .error e => .error ("Lexical error at offset " ++ toString e.offset)
  | .ok ts =>
    match parseExpr (progFuel ts) ts with
    | .ok (e, []) => .ok e
    | .ok (_, _ :: _) => .error "Unable to consume token"
    | .error e => .error e

/-! ## Interpreter

Modelled from the spec: the tree-walking evaluator of section 4.3 with a
chain of lexical environments, anchored to the interpreter tests.
interpreter.ts is not among the provided sources.

Model boundaries, each irrelevant to the inputs the tests exercise:
numbers are exact rationals rather than float64 (every tested value is
exactly representable); `**` with a non-integer exponent and division by
zero, which in the source follow host float semantics, are given the
value 0 here; the environment chain is carried as a value (a list of
frames, innermost first) rather than by reference, so a closure sees the
chain as it was when captured — the tested programs never rebind an
outer name after a closure captures it, so both models agree on them. -/

/-- Truncation toward zero, the rounding used by the `%` operator
(written with `Rat.floor` and a numerator sign test so that it
evaluates by kernel reduction). -/
def truncQ (q : ℚ) : ℤ := if 0 ≤ q.num then q.floor else -(Rat.floor (-q))

theorem ratFloor_eq_floor (q : ℚ) : q.floor = ⌊q⌋ :=
  (Rat.floor_def' q).trans Rat.floor_def.symm

theorem truncQ_eq (q : ℚ) : truncQ q = if 0 ≤ q then ⌊q⌋ else ⌈q⌉ := by
  unfold truncQ
  rcases le_or_lt 0 q with h | h
  · simp [Rat.num_nonneg.2 h, h, ratFloor_eq_floor]
  · have hn : ¬ 0 ≤ q.num := by
      simpa [Rat.num_nonneg] using not_le.2 h
    simp [hn, not_le.2 h, ratFloor_eq_floor, Int.floor_neg]

/-- The `%` operator: truncating remainder, sign following the
dividend. -/
def jsRem (a b : ℚ) : ℚ := a - b * (truncQ (a / b) : ℚ)

/-- The `**` operator on the rational model: exact integer powers; a
non-integer exponent (host `Math.pow` territory) is out of the model
and mapped to 0. -/
def powQ (a b : ℚ) : ℚ :=
  if b.den = 1 then
    if 0 ≤ b.num then a ^ b.num.toNat else (a ^ (-b.num).toNat)⁻¹
  else 0

/-- Arithmetic dispatch for the binary operators other than `=`. -/
def applyBinOp (op : TokenKind) (a b : ℚ) : ℚ :=
  match op with
  | .Plus => a + b
  | .Minus => a - b
  | .Asterisk => a * b
  | .RightSlash => a / b
  | .Percent => jsRem a b
  | .AsteriskAsterisk => powQ a b
  | _ => 0

/-- Runtime values: numbers, and closures holding their parameter
names, body AST and captured environment. -/
inductive Value where
  | num (value : ℚ)
  | closure (parameters : List String) (body : Expression)
      (env : List (List (String × Value)))

/-- The environment chain: a list of frames, innermost first.  Each
frame is a name-to-value mapping; newer bindings of a frame precede
older ones, so lookup finds the newest (shadowing). -/
abbrev Env := List (List (String × Value))

def lookupFrame (f : List (String × Value)) (x : String) : Option Value :=
  match f with
  | [] => none
  | (y, v) :: rest => if y = x then some v else lookupFrame rest x

/-- Identifier resolution: walk the chain from innermost to outermost. -/
def lookupVar (env : Env) (x : String) : Option Value :=
  match env with
  | [] => none
  | f :: parent =>
    match lookupFrame f x with
    | some v => some v
    | none => lookupVar parent x

/-- `let`: bind in the current (innermost) frame, shadowing any outer
binding of the same name. -/
def declareVar (env : Env) (x : String) (v : Value) : Env :=
  match env with
  | [] => [[(x, v)]]
  | f :: parent => ((x, v) :: f) :: parent

def frameDefines (f : List (String × Value)) (x : String) : Bool :=
  (lookupFrame f x).isSome

def setInFrame (f : List (String × Value)) (x : String) (v : Value) :
    List (String × Value) :=
  match f with
  | [] => [(x, v)]
  | (y, w) :: rest => if y = x then (x, v) :: rest else (y, w) :: setInFrame rest x v

/-- `=`: rebind in the nearest enclosing frame that already defines the
name, or define it in the current frame if no frame does. -/
def assignVar (env : Env) (x : String) (v : Value) : Env :=
  match env with
  | [] => [[(x, v)]]
  | f :: parent =>
    if frameDefines f x then setInFrame f x v :: parent
    else if (lookupVar parent x).isSome then f :: assignVar parent x v
    else ((x, v) :: f) :: parent

/-- The parameter names of a `FunctionParameters` node's identifier
list. -/
def paramNames (ps : List Expression) : List String :=
  ps.filterMap (fun p => match p with | .Identifier x _ => some x | _ => none)

mutual

/-- Evaluate one expression, threading the environment (declarations
and assignments update it). -/
def evalExpr : Nat → Env → Expression → Except String (Value × Env)
  | 0, _, _ => .error "out of fuel"
  | fuel + 1, env, e =>
    match e with
    | .NumericLiteral v _ => .ok (.num v, env)
    | .Identifier x _ =>
      match lookupVar env x with
      | some v => .ok (v, env)
      | none => .error ("unresolved identifier: " ++ x)
    | .UnaryExpression _ operand _ => do
      let (v, env') ← evalExpr fuel env operand
      match v with
      | .num q => .ok (.num (-q), env')
      | _ => .error "operand is not a number"
    | .BinaryExpression l op r _ =>
      match op with
      | .Equals =>
        match l with
        | .Identifier x _ => do
          let (v, env') ← evalExpr fuel env r
          .ok (v, assignVar env' x v)
        | _ => .error "invalid assignment target"
      | _ => do
        let (lv, env₁) ← evalExpr fuel env l
        let (rv, env₂) ← evalExpr fuel env₁ r
        match lv, rv with
        | .num a, .num b => .ok (.num (applyBinOp op a b), env₂)
        | _, _ => .error "operand is not a number"
    | .VariableDeclaration name init _ =>
      match name with
      | .Identifier x _ => do
        let (v, env') ← evalExpr fuel env init
        .ok (v, declareVar env' x v)
      | _ => .error "invalid declaration"
    | .FunctionExpression ps body _ =>
      match ps with
      | .FunctionParameters params _ => .ok (.closure (paramNames params) body env, env)
      | _ => .error "malformed function expression"
    | .FunctionParameters _ _ => .error "unexpected parameter list"
    | .FunctionBody _ _ => .error "unexpected block"
    | .FunctionCall name args _ =>
      match name with
      | .Identifier f _ =>
        match lookupVar env f with
        | none => .error ("unresolved identifier: " ++ f)
        | some (.num _) => .error (f ++ " is not callable")
        | some (.closure params body cenv) => do
          let (vs, env') ← evalArgs fuel env args
          if vs.length = params.length then do
            let (v, _) ← evalBody fuel ((params.zip vs) :: cenv) body
            .ok (v, env')
          else
            .error ("expected " ++ toString params.length ++ " arguments, got "
              ++ toString vs.length)
      | _ => .error "not callable"

/-- Evaluate call arguments left to right, threading the environment. -/
def evalArgs : Nat → Env → List Expression → Except String (List Value × Env)
  | 0, _, _ => .error "out of fuel"
  | _ + 1, env, [] => .ok ([], env)
  | fuel + 1, env, a :: rest => do
    let (v, env') ← evalExpr fuel env a
    let (vs, env'') ← evalArgs fuel env' rest
    .ok (v :: vs, env'')

/-- Evaluate a function body in the freshly created call environment: a
sequence body evaluates each statement in order and yields the last
statement's value; a single-expression body yields that expression's
value. -/
def evalBody : Nat → Env → Expression → Except String (Value × Env)
  | 0, _, _ => .error "out of fuel"
  | fuel + 1, env, .FunctionBody stmts _ => evalStmtSeq fuel env stmts
  | fuel + 1, env, e => evalExpr fuel env e

/-- Evaluate a statement sequence in order; the result is the last
statement's value.  An empty sequence (the `() => \x7b\x7d` case the
spec leaves implementation-defined) is an error here. -/
def evalStmtSeq : Nat → Env → List Expression → Except String (Value × Env)
  | 0, _, _ => .error "out of fuel"
  | _ + 1, _, [] => .error "empty statement sequence"
  | fuel + 1, env, [s] => evalExpr fuel env s
  | fuel + 1, env, s :: s' :: rest => do
    let (_, env') ← evalExpr fuel env s
    evalStmtSeq fuel env' (s' :: rest)

end

/-- Evaluate a program: statements run in order in one shared top-level
environment; the result is the last statement's value. -/
def evalProgram (fuel : Nat) (p : ProgramNode) : Except String (Value × Env) :=
  match p with
  | .Program stmts _ => evalStmtSeq fuel [[]] stmts

/-- interpret entry point: tokenize, parse and evaluate a whole
program. -/
def interpret (s : String) : Except String Value :=
  match parse s with
  | .error e => .error e
  | .ok p =>
    match evalProgram 1000 p with
    | .ok (v, _) => .ok v
    | .error e => .error e

/-! ## Auxiliary predicates and helper lemmas -/

/-- Does the token list start with a `**` token?  (Used to state that an
exponent chain has ended.) -/
def nextIsAA : List Token → Bool
  | v :: _ => v.kind = .AsteriskAsterisk
  | [] => false

mutual

/-- The whole-tree check that no node carries a `meta` source range. -/
def allMetaNone : Expression → Bool
  | .NumericLiteral _ m => m.isNone
  | .Identifier _ m => m.isNone
  | .UnaryExpression _ e m => m.isNone && allMetaNone e
  | .BinaryExpression l _ r m => m.isNone && allMetaNone l && allMetaNone r
  | .VariableDeclaration n i m => m.isNone && allMetaNone n && allMetaNone i
  | .FunctionExpression p b m => m.isNone && allMetaNone p && allMetaNone b
  | .FunctionParameters ps m => m.isNone && listAllMetaNone ps
  | .FunctionBody ss m => m.isNone && listAllMetaNone ss
  | .FunctionCall n args m => m.isNone && allMetaNone n && listAllMetaNone args

/-- `allMetaNone` over a statement or argument list. -/
def listAllMetaNone : List Expression → Bool
  | [] => true
  | e :: es => allMetaNone e && listAllMetaNone es

end

/-- `allMetaNone` for a whole program. -/
def progAllMetaNone : ProgramNode → Bool
  | .Program ss m => m.isNone && listAllMetaNone ss

/-- The exponent level groups to the right: whenever its three operands
parse as unary-level expressions `a`, `b`, `c` separated by two `**`
tokens (and no further `**` follows), the whole phrase parses as
`a ** (b ** c)`. -/
theorem parseExpo_right_assoc (k : Nat) (ts1 ts2 ts3 rest : List Token)
    (a b c : Expression) (t1 t2 : Token)
    (h1k : t1.kind = .AsteriskAsterisk) (h2k : t2.kind = .AsteriskAsterisk)
    (hrest : nextIsAA rest = false)
    (h1 : parseUnary (k+1+1) (ts1 ++ (t1 :: (ts2 ++ (t2 :: (ts3 ++ rest))))) =
      .ok (a, t1 :: (ts2 ++ (t2 :: (ts3 ++ rest)))))
    (h2 : parseUnary (k+1) (ts2 ++ (t2 :: (ts3 ++ rest))) = .ok (b, t2 :: (ts3 ++ rest)))
    (h3 : parseUnary k (ts3 ++ rest) = .ok (c, rest)) :
    parseExpo (k+1+1+1) (ts1 ++ (t1 :: (ts2 ++ (t2 :: (ts3 ++ rest))))) =
      .ok (BinaryExpression a .AsteriskAsterisk (BinaryExpression b .AsteriskAsterisk c), rest) := by
  rw [parseExpo.eq_def]
  simp only [h1, Except.bind, bind]
  simp [h1k]
  rw [parseExpo.eq_def]
  simp only [h2, Except.bind, bind]
  simp [h2k]
  rw [parseExpo.eq_def]
  simp only [h3, Except.bind, bind]
  cases rest with
  | nil => rfl
  | cons u us =>
    simp only [nextIsAA, decide_eq_false_iff_not] at hrest
    simp [hrest]

/-- No expression parse can start at a `)` token. -/
theorem parseExpr_rp (f : Nat) (u : Token) (l : List Token) (r : Expression × List Token)
    (hu : u.kind = .RightParen) (h : parseExpr f (u :: l) = .ok r) : False := by
  obtain ⟨ku, xu, au, bu⟩ := u
  simp only [Token.kind] at hu
  subst hu
  rcases f with _|_|_|_|_|_|f <;>
    simp [parseExpr.eq_def, parseAdditive.eq_def, parseMult.eq_def, parseExpo.eq_def,
      parseUnary.eq_def, parsePrimary.eq_def, Except.bind, bind] at h

/-- An expression parse starting at an identifier followed by `)` or `,`
consumes exactly that identifier. -/
theorem parseExpr_identStop (f : Nat) (u w : Token) (l : List Token)
    (r : Expression × List Token)
    (hu : u.kind = .Identifier) (hw : w.kind = .RightParen ∨ w.kind = .Comma)
    (h : parseExpr f (u :: (w :: l)) = .ok r) : r = (Identifier u.text, w :: l) := by
  obtain ⟨ku, xu, au, bu⟩ := u
  simp only [Token.kind] at hu
  subst hu
  obtain ⟨kw, xw, aw, bw⟩ := w
  simp only [Token.kind] at hw
  rcases hw with hw | hw <;> subst hw <;>
  · rcases f with _|_|_|_|_|_|f <;>
      simp [parseExpr.eq_def, parseAdditive.eq_def, parseMult.eq_def, parseExpo.eq_def,
        parseUnary.eq_def, parsePrimary.eq_def, parseAddLoop.eq_def, parseMulLoop.eq_def,
        Except.bind, bind, Identifier, Token.kind] at h
    · exact h.symm

/-- A token sequence that parses as one whole parenthesized expression
is never mistaken for a function header: the lookahead returns false. -/
theorem headerFalse (f : Nat) (ts : List Token) (rp : Token) (e : Expression)
    (hrp : rp.kind = .RightParen)
    (hin : parseExpr f (ts ++ [rp]) = .ok (e, [rp])) :
    isFunctionHeader (ts ++ [rp]) = false := by
  by_contra hT
  rw [Bool.not_eq_false] at hT
  cases ts with
  | nil =>
    simp [isFunctionHeader, hrp, nextIsArrow] at hT
  | cons u ts' =>
    rw [List.cons_append] at hT hin
    by_cases hu : u.kind = .RightParen
    · exact parseExpr_rp f u (ts' ++ [rp]) (e, [rp]) hu hin
    · by_cases hid : u.kind = .Identifier
      · rw [isFunctionHeader.eq_def] at hT
        simp [hu, hid] at hT
        cases ts' with
        | nil =>
          simp [scanParams, hrp, nextIsArrow] at hT
        | cons w ts'' =>
          rw [List.cons_append] at hin
          have hw : w.kind = .RightParen ∨ w.kind = .Comma := by
            rw [List.cons_append, scanParams.eq_def] at hT
            by_cases hw1 : w.kind = .RightParen
            · exact Or.inl hw1
            · by_cases hw2 : w.kind = .Comma
              · exact Or.inr hw2
              · simp [hw1, hw2] at hT
          have hstop := parseExpr_identStop f u w (ts'' ++ [rp]) (e, [rp]) hid hw hin
          have hlist := congrArg Prod.snd hstop
          simp at hlist
      · rw [isFunctionHeader.eq_def] at hT
        simp [hu, hid] at hT

/-- Parenthesization neutrality at the parser level: wrapping a fully
parsed expression in parentheses parses to the same node, with no
wrapper. -/
theorem parenNeutral (h : Nat) (ts : List Token) (lp rp : Token) (e : Expression)
    (hlp : lp.kind = .LeftParen) (hrp : rp.kind = .RightParen)
    (hin : parseExpr h (ts ++ [rp]) = .ok (e, [rp])) :
    parseExpr (h+1+1+1+1+1+1) (lp :: (ts ++ [rp])) = .ok (e, []) := by
  have hhf := headerFalse h ts rp e hrp hin
  obtain ⟨kl, xl, al, bl⟩ := lp
  simp only [Token.kind] at hlp
  subst hlp
  obtain ⟨kr, xr, ar, br⟩ := rp
  simp only [Token.kind] at hrp
  subst hrp
  rw [parseExpr.eq_def]
  simp [parseAdditive.eq_def, parseMult.eq_def, parseExpo.eq_def, parseUnary.eq_def,
    parsePrimary.eq_def, parseAddLoop.eq_def, parseMulLoop.eq_def,
    hin, hhf, Except.bind, bind]

/-- The product of the divisor with the truncated quotient never
exceeds a nonnegative dividend. -/
theorem mul_truncQ_div_le (a b : ℚ) (ha : 0 ≤ a) : b * (truncQ (a / b) : ℚ) ≤ a := by
  rcases eq_or_ne b 0 with hb | hb
  · simp [hb, ha]
  rw [truncQ_eq]
  split_ifs with hq
  · rcases lt_or_gt_of_ne hb with hbneg | hbpos
    · have hqle : a / b ≤ 0 := div_nonpos_iff.2 (Or.inl ⟨ha, hbneg.le⟩)
      have hq0 : a / b = 0 := le_antisymm hqle hq
      rw [hq0]
      simpa using ha
    · have h1 : b * (⌊a / b⌋ : ℚ) ≤ b * (a / b) :=
        mul_le_mul_of_nonneg_left (Int.floor_le _) hbpos.le
      rwa [mul_div_cancel₀ a hb] at h1
  · have hbneg : b < 0 := by
      rcases lt_or_gt_of_ne hb with hbneg | hbpos
      · exact hbneg
      · exact absurd (div_nonneg ha hbpos.le) hq
    have h1 : b * (⌈a / b⌉ : ℚ) ≤ b * (a / b) :=
      mul_le_mul_of_nonpos_left (Int.le_ceil _) hbneg.le
    rwa [mul_div_cancel₀ a hb] at h1

/-- Truncation toward zero is odd. -/
theorem truncQ_neg (q : ℚ) : truncQ (-q) = -truncQ q := by
  rw [truncQ_eq, truncQ_eq]
  rcases lt_trichotomy q 0 with hq | hq | hq
  · rw [if_pos (neg_nonneg.2 hq.le), if_neg (not_le.2 hq), Int.floor_neg]
  · simp [hq]
  · rw [if_neg (not_le.2 (neg_lt_zero.2 hq)), if_pos hq.le, Int.ceil_neg]

/-- The remainder is odd in the dividend. -/
theorem jsRem_neg_dividend (a b : ℚ) : jsRem (-a) b = -jsRem a b := by
  unfold jsRem
  rw [neg_div, truncQ_neg]
  push_cast
  ring

/-- A nonnegative dividend gives a nonnegative remainder. -/
theorem jsRem_nonneg (a b : ℚ) (ha : 0 ≤ a) : 0 ≤ jsRem a b :=
  sub_nonneg.2 (mul_truncQ_div_le a b ha)

/-- A nonpositive dividend gives a nonpositive remainder. -/
theorem jsRem_nonpos (a b : ℚ) (ha : a ≤ 0) : jsRem a b ≤ 0 := by
  have h := jsRem_nonneg (-a) b (neg_nonneg.2 ha)
  rw [jsRem_neg_dividend] at h
  linarith

/-! ## Claims -/

/-- C1: Closures evaluate their bodies in a fresh environment whose
parent is the environment captured at the definition site, and a
brace-delimited body yields its last statement's value: the program
`let inc = (x) => x + 1` followed by `inc(1)` interprets to 2, and the
three-function square/inc/main program applied as `main(11)` interprets
to 144. -/
theorem C1_closures_evaluate :
    interpret "let inc = (x) => x + 1\ninc(1)" = .ok (.num 2) ∧
    interpret
      "let square = (x) => { x ** 2 }\nlet inc = (x) => x + 1\nlet main = (x) => { let y = inc(x); square(y) }\nmain(11)"
      = .ok (.num 144) :=
  ⟨by with_unfolding_all rfl, by with_unfolding_all rfl⟩

/-- C2: The exponentiation operator is right-associative: whenever the
exponent level's three operands parse as unary-level expressions
`a`, `b`, `c` separated by two `**` tokens, the phrase parses as
`a ** (b ** c)` — never `(a ** b) ** c`; concretely, `2 ** 3 ** 2`
parses with right operand `3 ** 2` and evaluates to 512, not 64. -/
theorem C2_exponent_right_assoc :
    (∀ (k : Nat) (ts1 ts2 ts3 rest : List Token) (a b c : Expression) (t1 t2 : Token),
      t1.kind = .AsteriskAsterisk → t2.kind = .AsteriskAsterisk →
      nextIsAA rest = false →
      parseUnary (k+1+1) (ts1 ++ (t1 :: (ts2 ++ (t2 :: (ts3 ++ rest))))) =
        .ok (a, t1 :: (ts2 ++ (t2 :: (ts3 ++ rest)))) →
      parseUnary (k+1) (ts2 ++ (t2 :: (ts3 ++ rest))) = .ok (b, t2 :: (ts3 ++ rest)) →
      parseUnary k (ts3 ++ rest) = .ok (c, rest) →
      parseExpo (k+1+1+1) (ts1 ++ (t1 :: (ts2 ++ (t2 :: (ts3 ++ rest))))) =
        .ok (BinaryExpression a .AsteriskAsterisk (BinaryExpression b .AsteriskAsterisk c),
          rest)) ∧
    parseExpressionFull "2 ** 3 ** 2" =
      .ok (BinaryExpression (NumericLiteral 2) .AsteriskAsterisk
        (BinaryExpression (NumericLiteral 3) .AsteriskAsterisk (NumericLiteral 2))) ∧
    interpret "2 ** 3 ** 2" = .ok (.num 512) ∧
    interpret "2 ** 3 ** 2" ≠ .ok (.num 64) := by
  refine ⟨parseExpo_right_assoc, by with_unfolding_all rfl, by with_unfolding_all rfl, ?_⟩
  have h512 : interpret "2 ** 3 ** 2" = .ok (.num 512) := by with_unfolding_all rfl
  rw [h512]
  intro hcl
  have h1 : Value.num 512 = Value.num 64 := by injection hcl
  have h2 : (512 : ℚ) = 64 := by injection h1
  norm_num at h2

/-- Witness for C2: the right-associativity statement applied to the
token list of `2 ** 3 ** 2`. -/
theorem C2_exponent_right_assoc_witness :
    parseExpo (2+1+1+1)
      ([⟨.Number, "2", 0, 1⟩] ++ (⟨.AsteriskAsterisk, "**", 2, 4⟩ ::
        ([⟨.Number, "3", 5, 6⟩] ++ (⟨.AsteriskAsterisk, "**", 7, 9⟩ ::
          ([⟨.Number, "2", 10, 11⟩] ++ ([] : List Token)))))) =
      .ok (BinaryExpression (NumericLiteral 2) .AsteriskAsterisk
        (BinaryExpression (NumericLiteral 3) .AsteriskAsterisk (NumericLiteral 2)), []) :=
  C2_exponent_right_assoc.1 2
    [⟨.Number, "2", 0, 1⟩] [⟨.Number, "3", 5, 6⟩] [⟨.Number, "2", 10, 11⟩] []
    (NumericLiteral 2) (NumericLiteral 3) (NumericLiteral 2)
    ⟨.AsteriskAsterisk, "**", 2, 4⟩ ⟨.AsteriskAsterisk, "**", 7, 9⟩
    rfl rfl rfl
    (by with_unfolding_all rfl) (by with_unfolding_all rfl) (by with_unfolding_all rfl)

/-- C3: Additive and multiplicative operators fold left and bind looser
than `**`: `1 - 2 - 3` evaluates to -4 with AST `(1-2)-3`; `1 + 2 * 3`
evaluates to 7; `2 * 3 ** 2` evaluates to 18; and `10 ** 2 * 3` groups
as `(10**2)*3`. -/
theorem C3_left_assoc_and_precedence :
    parseExpressionFull "1 - 2 - 3" =
      .ok (BinaryExpression
        (BinaryExpression (NumericLiteral 1) .Minus (NumericLiteral 2)) .Minus
        (NumericLiteral 3)) ∧
    interpret "1 - 2 - 3" = .ok (.num (-4)) ∧
    interpret "1 + 2 * 3" = .ok (.num 7) ∧
    interpret "2 * 3 ** 2" = .ok (.num 18) ∧
    parseExpressionFull "10 ** 2 * 3" =
      .ok (BinaryExpression
        (BinaryExpression (NumericLiteral 10) .AsteriskAsterisk (NumericLiteral 2)) .Asterisk
        (NumericLiteral 3)) :=
  ⟨by with_unfolding_all rfl, by with_unfolding_all rfl, by with_unfolding_all rfl,
   by with_unfolding_all rfl, by with_unfolding_all rfl⟩

/-- C4 counterexample: a two-statement program whose statements are
separated only by a line break — the first closure program of the
interpreter's own tests — does parse as a two-statement Program,
refuting the claim that `;` is the only statement separator in effect
and that such input does not parse as a multi-statement Program. -/
theorem C4_newline_program_counterexample :
    parse "let inc = (x) => x + 1\ninc(1)" =
      .ok (.Program
        [VariableDeclaration (Identifier "inc")
          (FunctionExpression (FunctionParameters [Identifier "x"])
            (BinaryExpression (Identifier "x") .Plus (NumericLiteral 1))),
         FunctionCallExpression (Identifier "inc") [NumericLiteral 1]] none) := by
  with_unfolding_all rfl

/-- C4 (amended): `;`-joined statements (with an optional trailing `;`)
parse into a Program listing them in source order; but `;` is not the
only statement separator in effect — newlines are skipped as whitespace
and a statement boundary needs no separator token, so statements
separated only by line breaks also parse as a multi-statement
Program. -/
theorem C4_statement_separators :
    parse "let a = 1; let b = 2; let c = 3" =
      .ok (.Program
        [VariableDeclaration (Identifier "a") (NumericLiteral 1),
         VariableDeclaration (Identifier "b") (NumericLiteral 2),
         VariableDeclaration (Identifier "c") (NumericLiteral 3)] none) ∧
    parse "let a = 1; let b = 2;" =
      .ok (.Program
        [VariableDeclaration (Identifier "a") (NumericLiteral 1),
         VariableDeclaration (Identifier "b") (NumericLiteral 2)] none) ∧
    parse "let a = 1\nlet b = 2" =
      .ok (.Program
        [VariableDeclaration (Identifier "a") (NumericLiteral 1),
         VariableDeclaration (Identifier "b") (NumericLiteral 2)] none) :=
  ⟨by with_unfolding_all rfl, by with_unfolding_all rfl, by with_unfolding_all rfl⟩

/-- C5 counterexample: the node the parser produces for `"1"` — exactly
the factory-built node the parser tests expect under toStrictEqual —
carries no `from`/`to` source range at all, refuting the claim that
every parser-produced node carries one. -/
theorem C5_meta_counterexample :
    parseExpressionFull "1" = .ok (.NumericLiteral 1 none) ∧
    Expression.metaOf (.NumericLiteral 1 none) = none :=
  ⟨by with_unfolding_all rfl, rfl⟩

/-- C5 (amended): the `BaseNode` interface of ast.ts declares a
`meta` `from`/`to` range, but the nodes the parser actually produces —
structurally equal to the factory-built expectations of its tests —
carry no `meta` range on any node of the tree. -/
theorem C5_nodes_carry_no_meta :
    (parseExpressionFull "1").map allMetaNone = .ok true ∧
    (parse "let inc = (x) => x + 1\ninc(1)").map progAllMetaNone = .ok true :=
  ⟨by with_unfolding_all rfl, by with_unfolding_all rfl⟩

/-- C6: Parenthesization neutrality: wrapping a fully parsed expression
in parentheses parses to the very same AST node (no wrapper node), and
hence evaluates to the same value; concretely `(1 + 2)` parses to the
same node as `1 + 2` and both interpret alike. -/
theorem C6_paren_neutrality :
    (∀ (h : Nat) (ts : List Token) (lp rp : Token) (e : Expression),
      lp.kind = .LeftParen → rp.kind = .RightParen →
      parseExpr h (ts ++ [rp]) = .ok (e, [rp]) →
      parseExpr (h+1+1+1+1+1+1) (lp :: (ts ++ [rp])) = .ok (e, [])) ∧
    parseExpressionFull "(1 + 2)" =
      .ok (BinaryExpression (NumericLiteral 1) .Plus (NumericLiteral 2)) ∧
    parseExpressionFull "1 + 2" =
      .ok (BinaryExpression (NumericLiteral 1) .Plus (NumericLiteral 2)) ∧
    interpret "(1 + 2)" = interpret "1 + 2" :=
  ⟨parenNeutral, by with_unfolding_all rfl, by with_unfolding_all rfl,
   by with_unfolding_all rfl⟩

/-- Witness for C6: the neutrality statement applied to the token list
of `1 + 2` surrounded by parentheses. -/
theorem C6_paren_neutrality_witness :
    parseExpr (8+1+1+1+1+1+1)
      (⟨.LeftParen, "(", 0, 1⟩ ::
        ([⟨.Number, "1", 1, 2⟩, ⟨.Plus, "+", 3, 4⟩, ⟨.Number, "2", 5, 6⟩] ++
          [⟨.RightParen, ")", 6, 7⟩])) =
      .ok (BinaryExpression (NumericLiteral 1) .Plus (NumericLiteral 2), []) :=
  C6_paren_neutrality.1 8
    [⟨.Number, "1", 1, 2⟩, ⟨.Plus, "+", 3, 4⟩, ⟨.Number, "2", 5, 6⟩]
    ⟨.LeftParen, "(", 0, 1⟩ ⟨.RightParen, ")", 6, 7⟩
    (BinaryExpression (NumericLiteral 1) .Plus (NumericLiteral 2))
    rfl rfl (by with_unfolding_all rfl)

/-- C7: Parsing is deterministic and unambiguous: parsing a fixed input
never yields two different results (at most one successful parse), and
the committed resolution of the one ambiguous prefix `(` picks the
function header when `=>` follows and the parenthesized expression
otherwise. -/
theorem C7_parse_deterministic :
    (∀ (s : String) (a b : ProgramNode), parse s = .ok a → parse s = .ok b → a = b) ∧
    parseExpressionFull "(x) => 1" =
      .ok (FunctionExpression (FunctionParameters [Identifier "x"]) (NumericLiteral 1)) ∧
    parseExpressionFull "(1)" = .ok (NumericLiteral 1) := by
  refine ⟨?_, by with_unfolding_all rfl, by with_unfolding_all rfl⟩
  intro s a b ha hb
  rw [ha] at hb
  injection hb

/-- Witness for C7: the uniqueness statement applied to the parses of
`1`. -/
theorem C7_parse_deterministic_witness :
    (ProgramNode.Program [NumericLiteral 1] none) = .Program [NumericLiteral 1] none :=
  C7_parse_deterministic.1 "1" _ _ (by with_unfolding_all rfl) (by with_unfolding_all rfl)

/-- C8: `%` computes the truncating remainder whose sign follows the
dividend: `7 % 2` evaluates to 1 and `7 % 4` evaluates to 3, and the
remainder of a nonnegative (resp. nonpositive) dividend is nonnegative
(resp. nonpositive) whatever the divisor. -/
theorem C8_remainder_semantics :
    interpret "7 % 2" = .ok (.num 1) ∧
    interpret "7 % 4" = .ok (.num 3) ∧
    (∀ a b : ℚ, 0 ≤ a → 0 ≤ jsRem a b) ∧
    (∀ a b : ℚ, a ≤ 0 → jsRem a b ≤ 0) :=
  ⟨by with_unfolding_all rfl, by with_unfolding_all rfl, jsRem_nonneg, jsRem_nonpos⟩

/-- Witness for C8: the sign statements applied at dividends 7 and -7
with divisor 4. -/
theorem C8_remainder_semantics_witness :
    0 ≤ jsRem 7 4 ∧ jsRem (-7) 4 ≤ 0 :=
  ⟨C8_remainder_semantics.2.2.1 7 4 (by norm_num),
   C8_remainder_semantics.2.2.2 (-7) 4 (by norm_num)⟩

/-- C9: An empty brace body is syntactically valid while a brace body
containing only semicolons is not: `() => \x7b\x7d` parses to a function
expression with an empty statement sequence, whereas `() => \x7b;;;\x7d`
is a syntax error. -/
theorem C9_empty_brace_body :
    parseExpressionFull "() => {}" =
      .ok (FunctionExpression (FunctionParameters []) (FunctionBody [])) ∧
    parseExpressionFull "() => {;;;}" = .error "unable to consume token" :=
  ⟨by with_unfolding_all rfl, by with_unfolding_all rfl⟩

/-- C10: Parsing a numeric literal yields a NumericLiteral whose value
is exactly the number denoted by the decimal source text, preserving
fractional digits: `1000.0002` parses to the value 1000.0002 (the exact
rational 10000002/10000, not a truncated integer) and `-1.5` to a unary
minus applied to the literal 1.5. -/
theorem C10_numeric_literal_values :
    parseExpressionFull "1000.0002" = .ok (NumericLiteral (1000.0002 : ℚ)) ∧
    (1000.0002 : ℚ) = 10000002 / 10000 ∧
    parseExpressionFull "-1.5" = .ok (UnaryExpression .Minus (NumericLiteral (1.5 : ℚ))) ∧
    (1.5 : ℚ) = 3 / 2 :=
  ⟨by with_unfolding_all rfl, by norm_num, by with_unfolding_all rfl, by norm_num⟩

end Olang

